import Mathlib

/-!
Verification development for the Cognimark hybrid retrieval engine and the
frontend session/auth utilities.

The retrieval-engine definitions are modelled from the specification
(`spec.md`, sections 3-7) and the backend RAG guide, since the engine's
implementation files (`universal_rag.py`, `rag_config.py`) are not part of
the source tree; each such definition carries a doc comment starting with
`Modelled from the spec:`.  The session-manager and auth definitions are
direct shallow embeddings of the TypeScript sources.
-/

namespace Cogni

/-- The characters of a string, lowercased. -/
def lowerChars (s : String) : List Char :=
  s.toList.map Char.toLower

/-- Modelled from the spec: case-insensitive simple substring containment
(no stemming or tokenization), used both for trigger-keyword resolution and
keyword-field matching. -/
def containsCI (hay needle : String) : Bool :=
  decide (lowerChars needle <:+: lowerChars hay)

/-- Modelled from the spec: one configuration object per named data source
(spec section 3, `SourceConfig`). -/
structure SourceConfig where
  name : String
  triggerKeywords : List String
  keywordFields : List String
  indexFields : List String
  collectionName : String
  defaultLimit : Nat
deriving DecidableEq

/-- Modelled from the spec: a record is an opaque mapping from field name to
scalar value, with a mandatory id that is unique per source. -/
structure Record where
  id : String
  fields : List (String × String)
deriving DecidableEq

/-- Field lookup in a record; missing fields read as the empty string. -/
def Record.getField (r : Record) (f : String) : String :=
  (((r.fields).find? (fun p => p.1 == f)).map (fun p => p.2)).getD ""

/-- Modelled from the spec: Keyword Matcher (section 4.4) — a record matches
if the lowercased query appears as a substring of any lowercased value of a
listed field; returned ids keep the input iteration order. -/
def keywordMatch (records : List Record) (fields : List String) (query : String) :
    List String :=
  (records.filter (fun r => fields.any (fun f => containsCI (r.getField f) query))).map
    (fun r => r.id)

/-- Modelled from the spec: one ranked vector-index hit (recordId paired with
a normalized similarity score). -/
structure VectorHit where
  recordId : String
  similarity : ℚ
deriving DecidableEq

/-- Modelled from the spec: which retrieval strategy produced a candidate. -/
inductive Strategy
  | keyword
  | vector
deriving DecidableEq

/-- Modelled from the spec: a transient fused match candidate (section 3,
`MatchCandidate`). -/
structure Candidate where
  source : String
  recordId : String
  score : ℚ
  strategy : Strategy
deriving DecidableEq

/-- Modelled from the spec: the vector similarity contributed to the fused
score, 0 if the record was not retrieved by the vector strategy. -/
def vectorSimOf (vectorHits : List VectorHit) (r : String) : ℚ :=
  (((vectorHits.find? (fun h => h.recordId == r)).map (fun h => h.similarity))).getD 0

/-- Modelled from the spec: fusion (section 4.5 step 3) — one score per
distinct recordId across both strategies;
`score = vectorSimilarity + keywordBoost` if the id is a keyword hit,
plain `vectorSimilarity` otherwise; ids retrieved by neither strategy are
absent. -/
def fuse (boost : ℚ) (src : String) (keywordIds : List String)
    (vectorHits : List VectorHit) : List Candidate :=
  ((keywordIds ++ vectorHits.map (fun h => h.recordId)).dedup).map (fun r =>
    { source := src
      recordId := r
      score := vectorSimOf vectorHits r + (if r ∈ keywordIds then boost else 0)
      strategy := if r ∈ keywordIds then Strategy.keyword else Strategy.vector })

/-- Modelled from the spec: the ranking order on fused candidates —
descending score, recordId ascending as tiebreak (section 4.5 step 4). -/
def candOrd (a b : Candidate) : Prop :=
  b.score < a.score ∨ (a.score = b.score ∧ a.recordId ≤ b.recordId)

instance (a b : Candidate) : Decidable (candOrd a b) := by
  unfold candOrd
  infer_instance

/-- Modelled from the spec: sort fused candidates by descending score with
ascending recordId as tiebreak. -/
def rankCandidates (cs : List Candidate) : List Candidate :=
  List.insertionSort candOrd cs

/-- Modelled from the spec: recognized global configuration options together
with the loaded registry (section 6). -/
structure EngineConfig where
  registry : List SourceConfig
  fallbackToAllSources : Bool
  enableKeywordSearch : Bool
  enableVectorSearch : Bool
  keywordBoost : ℚ
deriving DecidableEq

/-- Modelled from the spec: the engine's external collaborators — the
read-only record store, the vector index query (per collection), the
embedder, and whether the embedder's model could be loaded. -/
structure EngineEnv where
  listRecords : String → List Record
  vectorQuery : String → String → List VectorHit
  embedText : String → List ℚ
  embedderAvailable : Bool

/-- Modelled from the spec: error taxonomy entries surfaced to the caller
(section 7). -/
inductive RetrievalError
  | unknownSource (name : String)
  | retrievalUnavailable (source : String)
deriving DecidableEq

/-- Modelled from the spec: per-source search outcome — ranked candidates
plus whether vector search was degraded (embedder unavailable). -/
structure SourceResult where
  candidates : List Candidate
  vectorDegraded : Bool
deriving DecidableEq

/-- Modelled from the spec: the per-source retrieval pipeline (section 4.5
steps 2-4 plus failure semantics): keyword hits, vector hits when the
embedder is available and vector search enabled, fusion, ranking, truncation
to `topK` (default the source's `defaultLimit`); `RetrievalUnavailable` only
when no strategy is usable. -/
def searchSource (cfg : EngineConfig) (env : EngineEnv) (src : SourceConfig)
    (query : String) (topK : Option Nat) : Except RetrievalError SourceResult :=
  let vectorAvailable := cfg.enableVectorSearch && env.embedderAvailable
  if !cfg.enableKeywordSearch && !vectorAvailable then
    .error (.retrievalUnavailable src.name)
  else
    let keywordIds :=
      if cfg.enableKeywordSearch then
        keywordMatch (env.listRecords src.name) src.keywordFields query
      else []
    let vectorHits :=
      if vectorAvailable then env.vectorQuery src.collectionName query else []
    let fused := fuse cfg.keywordBoost src.name keywordIds vectorHits
    .ok { candidates := (rankCandidates fused).take (topK.getD src.defaultLimit)
          vectorDegraded := !env.embedderAvailable }

/-- Modelled from the spec: does the query (case-insensitively, simple
substring match) contain any of the source's trigger keywords? -/
def SourceConfig.triggeredBy (s : SourceConfig) (query : String) : Bool :=
  s.triggerKeywords.any (fun kw => containsCI query kw)

/-- Modelled from the spec: Source Registry resolution (section 4.1) — all
sources whose trigger keywords appear in the query, in registry declaration
order. -/
def resolveSourcesForQuery (registry : List SourceConfig) (query : String) :
    List SourceConfig :=
  registry.filter (fun s => s.triggeredBy query)

/-- Modelled from the spec: metadata attached to a search response. -/
structure SearchMetadata where
  sourcesQueried : List String
  vectorDegraded : Bool
deriving DecidableEq

/-- Modelled from the spec: the caller-facing search result. -/
structure RetrievalResult where
  candidates : List Candidate
  metadata : SearchMetadata
deriving DecidableEq

/-- Modelled from the spec: source selection for one call (section 4.5
step 1): an explicit override must name a registered source; otherwise the
registry resolution runs, with the `fallbackToAllSources` choice applied
when nothing matches. -/
def selectSources (cfg : EngineConfig) (query : String)
    (sourceOverride : Option String) : Except RetrievalError (List SourceConfig) :=
  match sourceOverride with
  | some n =>
    match cfg.registry.find? (fun s => s.name == n) with
    | some s => .ok [s]
    | none => .error (.unknownSource n)
  | none =>
    let matched := resolveSourcesForQuery cfg.registry query
    if matched.isEmpty then
      if cfg.fallbackToAllSources then .ok cfg.registry else .ok []
    else .ok matched

/-- Modelled from the spec: the candidates a source contributes to the
cross-source merge; a per-source failure contributes nothing (folded into
metadata, not raised). -/
def sourceCandidates (cfg : EngineConfig) (env : EngineEnv) (query : String)
    (topK : Option Nat) (src : SourceConfig) : List Candidate :=
  match searchSource cfg env src query topK with
  | .ok r => r.candidates
  | .error _ => []

/-- Modelled from the spec: whether a source's retrieval ran degraded. -/
def sourceDegraded (cfg : EngineConfig) (env : EngineEnv) (query : String)
    (topK : Option Nat) (src : SourceConfig) : Bool :=
  match searchSource cfg env src query topK with
  | .ok r => r.vectorDegraded
  | .error _ => false

/-- Modelled from the spec: the cross-source merge (section 4.5 step 6) —
all selected sources' ranked lists combined into one list ranked purely by
score (recordId ascending as tiebreak). -/
def mergedCandidates (cfg : EngineConfig) (env : EngineEnv) (query : String)
    (topK : Option Nat) (srcs : List SourceConfig) : List Candidate :=
  rankCandidates ((srcs.map (sourceCandidates cfg env query topK)).flatten)

/-- Modelled from the spec: the overall `topK` truncation, applied only when
the caller passed an explicit `topK`. -/
def limitCandidates (topK : Option Nat) (cs : List Candidate) : List Candidate :=
  match topK with
  | some n => cs.take n
  | none => cs

/-- Modelled from the spec: the full caller-facing search (section 4.5):
select sources, run the per-source pipeline, merge per-source ranked lists
purely by score (section 4.5 step 6), apply the overall `topK` when given,
and record metadata. -/
def search (cfg : EngineConfig) (env : EngineEnv) (query : String)
    (sourceOverride : Option String) (topK : Option Nat) :
    Except RetrievalError RetrievalResult :=
  match selectSources cfg query sourceOverride with
  | .error e => .error e
  | .ok srcs =>
    .ok { candidates :=
            limitCandidates topK (mergedCandidates cfg env query topK srcs)
          metadata := { sourcesQueried := srcs.map (fun s => s.name)
                        vectorDegraded := srcs.any (sourceDegraded cfg env query topK) } }

/-- Modelled from the spec: one stored vector-index entry per (source,
record) pair (section 3, `IndexedVector`). -/
structure IndexedVector where
  recordId : String
  vector : List ℚ
  payload : List (String × String)
deriving DecidableEq

/-- Modelled from the spec: the Index Builder's per-record work (section
4.6) — concatenate the `indexFields` values into one text blob, embed it,
and keep the payload for display. -/
def buildEntries (env : EngineEnv) (src : SourceConfig) (records : List Record) :
    List IndexedVector :=
  records.map (fun r =>
    { recordId := r.id
      vector := env.embedText
        (String.intercalate " " (src.indexFields.map (fun f => r.getField f)))
      payload := r.fields })

/-- Modelled from the spec: rebuild failure taxonomy (section 7,
`RebuildFailure`): an embedding failure aborts the rebuild of that source. -/
inductive RebuildFailure
  | embedderUnavailable (source : String)
deriving DecidableEq

/-- Modelled from the spec: single-source rebuild (section 4.6) — read the
full current row set from the external record store, embed every record, and
return the replacement collection contents; aborts without output when the
embedder cannot be loaded. -/
def rebuild (env : EngineEnv) (src : SourceConfig) :
    Except RebuildFailure (List IndexedVector) :=
  if env.embedderAvailable then
    .ok (buildEntries env src (env.listRecords src.name))
  else
    .error (.embedderUnavailable src.name)

/-- Modelled from the spec: per-source status entry reported by `status()`
(section 6). -/
structure SourceStatus where
  indexedCount : Nat
  keywords : List String
  collectionName : String
deriving DecidableEq

/-- Modelled from the spec: `status()` reports the indexed count of the
source's visible collection alongside its configuration. -/
def statusOf (src : SourceConfig) (index : List IndexedVector) : SourceStatus :=
  { indexedCount := index.length
    keywords := src.triggerKeywords
    collectionName := src.collectionName }

/-- Modelled from the spec: the phase of an in-flight rebuild of one source
(sections 4.3, 4.6): records are read, embeddings staged, and the visible
collection handle swapped in a single commit step. -/
inductive RebuildPhase
  | idle
  | loaded (records : List Record)
  | staged (entries : List IndexedVector)
  | committed
  | failed
deriving DecidableEq

/-- Modelled from the spec: the state shared between a rebuild and
concurrent searches — the visible collection handle plus the rebuild
phase. -/
structure IndexSystem where
  visible : List IndexedVector
  phase : RebuildPhase
deriving DecidableEq

/-- Modelled from the spec: what a concurrently running search observes —
it only ever reads the visible collection handle. -/
def searchView (sys : IndexSystem) : List IndexedVector :=
  sys.visible

/-- Modelled from the spec: the interleaved small steps of a rebuild running
against the visible index (sections 4.3, 4.6 and section 5): load the
record snapshot, stage the embeddings (failing there if the embedder is
unavailable), then commit by swapping the visible handle in one atomic
step; cancellation may hit any pre-commit phase and leaves the visible
handle untouched. -/
inductive RebuildStep (env : EngineEnv) (src : SourceConfig) :
    IndexSystem → IndexSystem → Prop
  | load (v : List IndexedVector) :
      RebuildStep env src ⟨v, .idle⟩ ⟨v, .loaded (env.listRecords src.name)⟩
  | stage (v : List IndexedVector) (rs : List Record) :
      env.embedderAvailable = true →
      RebuildStep env src ⟨v, .loaded rs⟩ ⟨v, .staged (buildEntries env src rs)⟩
  | stageFail (v : List IndexedVector) (rs : List Record) :
      env.embedderAvailable = false →
      RebuildStep env src ⟨v, .loaded rs⟩ ⟨v, .failed⟩
  | commit (v : List IndexedVector) (es : List IndexedVector) :
      RebuildStep env src ⟨v, .staged es⟩ ⟨es, .committed⟩
  | cancelIdle (v : List IndexedVector) :
      RebuildStep env src ⟨v, .idle⟩ ⟨v, .failed⟩
  | cancelLoaded (v : List IndexedVector) (rs : List Record) :
      RebuildStep env src ⟨v, .loaded rs⟩ ⟨v, .failed⟩
  | cancelStaged (v : List IndexedVector) (es : List IndexedVector) :
      RebuildStep env src ⟨v, .staged es⟩ ⟨v, .failed⟩

/-! ## Frontend session manager

Shallow embedding of `SessionManager` from `src/frontend/README.md`
(the embedded `sessionManager.ts` source).  The persisted store is the
parsed contents of `localStorage['cognimark_sessions']`. -/

/-- One chat message of a stored session (`ChatSession.messages` entries). -/
structure ChatMessage where
  id : String
  role : String
  content : String
deriving DecidableEq

/-- A stored chat session; `isTemporary` is the optional flag, with the
absent case read as `false` (JavaScript falsiness of `undefined`). -/
structure ChatSession where
  id : String
  title : String
  messages : List ChatMessage
  createdAt : Nat
  updatedAt : Nat
  isTemporary : Bool
deriving DecidableEq

/-- `SessionManager.getAllSessions`: parse the store and filter out
temporary sessions. -/
def getAllSessions (store : List ChatSession) : List ChatSession :=
  store.filter (fun s => !s.isTemporary)

/-- `SessionManager.saveSession`: temporary sessions are not saved (early
return); otherwise replace the matching entry of the filtered list in
place, or prepend the new session, and keep at most 50 entries
(`sessions.splice(50)`).  Returns the new persisted store. -/
def saveSession (store : List ChatSession) (session : ChatSession) :
    List ChatSession :=
  if session.isTemporary then store
  else
    let sessions := getAllSessions store
    match sessions.findIdx? (fun s => s.id == session.id) with
    | some i =>
      let updated := sessions.set i session
      if updated.length > 50 then updated.take 50 else updated
    | none =>
      let updated := session :: sessions
      if updated.length > 50 then updated.take 50 else updated

/-! ## Frontend auth context

Shallow embedding of `register` from `AuthContext`
(`src/unnamed/part_001`). -/

/-- A registered user object as built by `register`. -/
structure AuthUser where
  name : String
  avatar : String
  email : String
deriving DecidableEq

/-- The state touched by `AuthContext`: the
`localStorage['cognimark_registered_users']` map (insertion-ordered), the
React `user` state, and `localStorage['cognimark_user']`. -/
structure AuthState where
  registeredUsers : List (String × AuthUser)
  currentUser : Option AuthUser
  persistedUser : Option AuthUser
deriving DecidableEq

/-- `username.toLowerCase().replace(/\s+/g, '.')`: each maximal run of
whitespace characters becomes a single dot. -/
def collapseWs : List Char → List Char
  | [] => []
  | c :: cs =>
    if c.isWhitespace then
      '.' :: collapseWs (cs.dropWhile Char.isWhitespace)
    else
      c :: collapseWs cs
termination_by l => l.length
decreasing_by
  · simpa using Nat.lt_succ_of_le (List.dropWhile_sublist Char.isWhitespace).length_le
  · simp

/-- The user object `register` builds: first character uppercased as the
avatar, lowercased dotted name at `example.com` as the email. -/
def mkNewUser (username : String) : AuthUser :=
  { name := username
    avatar := ⟨(username.toList.take 1).map Char.toUpper⟩
    email := ⟨collapseWs (username.toList.map Char.toLower)⟩ ++ "@example.com" }

/-- `AuthContext.register`: if the username is already a key of the
registered-users map, throw `用户名已存在` before any write; otherwise add
the new user to the map, set the React user state, and persist the current
user (auto-login).  The returned pair is the state after the call and the
thrown error message, if any. -/
def register (st : AuthState) (username : String) :
    AuthState × Option String :=
  if (st.registeredUsers.find? (fun p => p.1 == username)).isSome then
    (st, some "用户名已存在")
  else
    let newUser := mkNewUser username
    ({ registeredUsers := st.registeredUsers ++ [(username, newUser)]
       currentUser := some newUser
       persistedUser := some newUser }, none)

/-- Modelled from the spec: all record identifiers a source can contribute
to one search call — the ids of its record snapshot and the ids its vector
collection can return for the query. -/
def sourceIdPool (env : EngineEnv) (query : String) (s : SourceConfig) :
    List String :=
  (env.listRecords s.name).map (fun r => r.id) ++
    (env.vectorQuery s.collectionName query).map (fun h => h.recordId)

/-- Invariant carried by every state reachable from an idle system with
visible collection `old`: pre-commit phases still expose `old`, the staged
entries are the fully built new collection, and after the commit the new
collection is exposed. -/
def rebuildInv (env : EngineEnv) (src : SourceConfig)
    (old : List IndexedVector) (sys : IndexSystem) : Prop :=
  match sys.phase with
  | .idle => sys.visible = old
  | .loaded rs => sys.visible = old ∧ rs = env.listRecords src.name
  | .staged es =>
      sys.visible = old ∧ es = buildEntries env src (env.listRecords src.name)
  | .committed => sys.visible = buildEntries env src (env.listRecords src.name)
  | .failed => sys.visible = old

/-! Concrete fixtures used by the witnesses. -/

/-- A sample source configuration matching the spec's `products` scenario. -/
def productsSource : SourceConfig :=
  { name := "products"
    triggerKeywords := ["product", "商品"]
    keywordFields := ["title"]
    indexFields := ["title"]
    collectionName := "products_vector"
    defaultLimit := 10 }

/-- A sample record whose title keyword-matches the query `laptop stand`. -/
def laptopRecord : Record :=
  { id := "p1", fields := [("title", "laptop stand pro")] }

/-- An environment whose store holds one record and whose embedder is in the
`ModelUnavailable` state. -/
def degradedEnv : EngineEnv :=
  { listRecords := fun _ => [laptopRecord]
    vectorQuery := fun _ _ => []
    embedText := fun _ => []
    embedderAvailable := false }

/-- An environment with an empty store and a healthy embedder. -/
def emptyEnv : EngineEnv :=
  { listRecords := fun _ => []
    vectorQuery := fun _ _ => []
    embedText := fun _ => []
    embedderAvailable := true }

/-- The default engine configuration over the sample registry. -/
def sampleCfg : EngineConfig :=
  { registry := [productsSource]
    fallbackToAllSources := true
    enableKeywordSearch := true
    enableVectorSearch := true
    keywordBoost := 2 }

/-- The sample configuration with `fallbackToAllSources` turned off. -/
def noFallbackCfg : EngineConfig :=
  { sampleCfg with fallbackToAllSources := false }

/-- The sample configuration with keyword search disabled. -/
def noKeywordCfg : EngineConfig :=
  { sampleCfg with enableKeywordSearch := false }

/-! ## Theorems -/

/-- C8: saving a temporary session leaves the persisted store unchanged,
and `getAllSessions` never returns a session whose `isTemporary` flag is
set, so temporary sessions are unobservable through the listing
interface. -/
theorem sessions_C8 (store : List ChatSession) (s t : ChatSession)
    (hs : s.isTemporary = true) (ht : t ∈ getAllSessions store) :
    saveSession store s = store ∧ t.isTemporary = false := by
  constructor
  · simp [saveSession, hs]
  · have := List.of_mem_filter ht
    simpa using this

/-- Witness for C8 at a concrete store. -/
theorem sessions_C8_witness :
    saveSession [⟨"a", "a", [], 0, 0, false⟩] ⟨"t", "t", [], 0, 0, true⟩ =
        [⟨"a", "a", [], 0, 0, false⟩] ∧
      (⟨"a", "a", [], 0, 0, false⟩ : ChatSession).isTemporary = false :=
  sessions_C8 [⟨"a", "a", [], 0, 0, false⟩] ⟨"t", "t", [], 0, 0, true⟩
    ⟨"a", "a", [], 0, 0, false⟩ rfl (by simp [getAllSessions])

/-- C9: after saving a non-temporary session the persisted list holds at
most 50 sessions; a session whose id is already present replaces that entry
in place, a new id is prepended to the front, and entries beyond position 50
are discarded. -/
theorem sessions_C9 (store : List ChatSession) (s : ChatSession)
    (hs : s.isTemporary = false) :
    (saveSession store s).length ≤ 50 ∧
    (∀ i, (getAllSessions store).findIdx? (fun t => t.id == s.id) = some i →
      saveSession store s = ((getAllSessions store).set i s).take 50) ∧
    ((∀ t ∈ getAllSessions store, t.id ≠ s.id) →
      saveSession store s = (s :: getAllSessions store).take 50) := by
  have hclip : ∀ l : List ChatSession,
      (if l.length > 50 then l.take 50 else l) = l.take 50 := by
    intro l
    split
    · rfl
    · exact (List.take_of_length_le (by omega)).symm
  have hsave : saveSession store s =
      match (getAllSessions store).findIdx? (fun t => t.id == s.id) with
      | some i => ((getAllSessions store).set i s).take 50
      | none => (s :: getAllSessions store).take 50 := by
    rw [saveSession, if_neg (by simp [hs])]
    cases hidx : (getAllSessions store).findIdx? (fun t => t.id == s.id) with
    | some i => simp only [hidx, hclip]
    | none => simp only [hidx, hclip]
  refine ⟨?_, ?_, ?_⟩
  · rw [hsave]
    cases hidx : (getAllSessions store).findIdx? (fun t => t.id == s.id) with
    | some i => simp [hidx]
    | none => simp [hidx]
  · intro i hidx
    rw [hsave, hidx]
  · intro h
    have hidx : (getAllSessions store).findIdx? (fun t => t.id == s.id) = none := by
      rw [List.findIdx?_eq_none_iff]
      intro t ht
      simp [h t ht]
    rw [hsave, hidx]

/-- Witness for C9 at a concrete store. -/
theorem sessions_C9_witness :
    (saveSession [] ⟨"a", "t", [], 0, 0, false⟩).length ≤ 50 ∧
    saveSession [] ⟨"a", "t", [], 0, 0, false⟩ =
      ((⟨"a", "t", [], 0, 0, false⟩ : ChatSession) :: getAllSessions []).take 50 :=
  ⟨(sessions_C9 [] ⟨"a", "t", [], 0, 0, false⟩ rfl).1,
   (sessions_C9 [] ⟨"a", "t", [], 0, 0, false⟩ rfl).2.2
     (by simp [getAllSessions])⟩

/-- C10: registering an existing username throws `用户名已存在` and leaves
the registered-users store and the current-user state unchanged; registering
a fresh username adds exactly one entry and sets (and persists) the current
user to it. -/
theorem auth_C10 (st : AuthState) (u : String) :
    ((∃ p ∈ st.registeredUsers, p.1 = u) →
      register st u = (st, some "用户名已存在")) ∧
    ((∀ p ∈ st.registeredUsers, p.1 ≠ u) →
      register st u =
        ({ registeredUsers := st.registeredUsers ++ [(u, mkNewUser u)]
           currentUser := some (mkNewUser u)
           persistedUser := some (mkNewUser u) }, none)) := by
  constructor
  · rintro ⟨p, hp, hpu⟩
    have hfind : (st.registeredUsers.find? (fun q => q.1 == u)).isSome := by
      rw [List.find?_isSome]
      exact ⟨p, hp, by simp [hpu]⟩
    simp [register, hfind]
  · intro h
    have hfind : st.registeredUsers.find? (fun q => q.1 == u) = none := by
      rw [List.find?_eq_none]
      intro q hq
      simp [h q hq]
    simp [register, hfind]

/-- Witness for C10: a fresh registration followed by a duplicate one. -/
theorem auth_C10_witness :
    register ⟨[], none, none⟩ "bob" =
      (⟨[("bob", mkNewUser "bob")], some (mkNewUser "bob"),
        some (mkNewUser "bob")⟩, none) ∧
    register ⟨[("bob", mkNewUser "bob")], none, none⟩ "bob" =
      (⟨[("bob", mkNewUser "bob")], none, none⟩, some "用户名已存在") := by
  constructor
  · have h := (auth_C10 ⟨[], none, none⟩ "bob").2 (by simp)
    simpa using h
  · exact (auth_C10 ⟨[("bob", mkNewUser "bob")], none, none⟩ "bob").1
      ⟨("bob", mkNewUser "bob"), by simp, rfl⟩

/-- C6: with a loadable embedder, `rebuild` succeeds and the reported
`indexedCount` equals the number of records `listRecords` returned at
rebuild time; rebuilding an empty source succeeds with an empty index. -/
theorem rag_C6 (env : EngineEnv) (src : SourceConfig)
    (h : env.embedderAvailable = true) :
    ∃ idx, rebuild env src = .ok idx ∧
      (statusOf src idx).indexedCount = (env.listRecords src.name).length ∧
      (env.listRecords src.name = [] → rebuild env src = .ok []) := by
  refine ⟨buildEntries env src (env.listRecords src.name), ?_, ?_, ?_⟩
  · simp [rebuild, h]
  · simp [statusOf, buildEntries]
  · intro hnil
    simp [rebuild, h, buildEntries, hnil]

/-- Witness for C6 on the empty store. -/
theorem rag_C6_witness :
    ∃ idx, rebuild emptyEnv productsSource = .ok idx ∧
      (statusOf productsSource idx).indexedCount =
        (emptyEnv.listRecords productsSource.name).length ∧
      (emptyEnv.listRecords productsSource.name = [] →
        rebuild emptyEnv productsSource = .ok []) :=
  rag_C6 emptyEnv productsSource rfl

/-- One rebuild step preserves the rebuild invariant. -/
theorem rebuildInv_step {env : EngineEnv} {src : SourceConfig}
    {old : List IndexedVector} {a b : IndexSystem}
    (hinv : rebuildInv env src old a) (hstep : RebuildStep env src a b) :
    rebuildInv env src old b := by
  cases hstep <;> simp_all [rebuildInv]

/-- Every state reachable from an idle system satisfies the rebuild
invariant. -/
theorem rebuildInv_reachable {env : EngineEnv} {src : SourceConfig}
    {old : List IndexedVector} {sys : IndexSystem}
    (h : Relation.ReflTransGen (RebuildStep env src) ⟨old, .idle⟩ sys) :
    rebuildInv env src old sys := by
  induction h with
  | refl => simp [rebuildInv]
  | tail _ hstep ih => exact rebuildInv_step ih hstep

/-- C7: a search running concurrently with a rebuild of the same source
observes either the entirely old or the entirely new collection, never a
mixture, and a rebuild that fails or is cancelled partway leaves the
previously visible collection intact; only the atomic commit step exposes
the new contents. -/
theorem rag_C7 (env : EngineEnv) (src : SourceConfig)
    (old : List IndexedVector) (sys : IndexSystem)
    (h : Relation.ReflTransGen (RebuildStep env src) ⟨old, .idle⟩ sys) :
    (searchView sys = old ∨
      searchView sys = buildEntries env src (env.listRecords src.name)) ∧
    (sys.phase = .failed → searchView sys = old) ∧
    (sys.phase = .committed →
      searchView sys = buildEntries env src (env.listRecords src.name)) := by
  have hinv := rebuildInv_reachable h
  obtain ⟨v, p⟩ := sys
  cases p <;> simp_all [rebuildInv, searchView]

/-- Witness for C7: a full load-stage-commit trace over the empty store. -/
theorem rag_C7_witness :
    (searchView ⟨buildEntries emptyEnv productsSource
        (emptyEnv.listRecords productsSource.name), .committed⟩ = [] ∨
      searchView ⟨buildEntries emptyEnv productsSource
        (emptyEnv.listRecords productsSource.name), .committed⟩ =
        buildEntries emptyEnv productsSource
          (emptyEnv.listRecords productsSource.name)) ∧
    ((⟨buildEntries emptyEnv productsSource
        (emptyEnv.listRecords productsSource.name), .committed⟩ :
          IndexSystem).phase = .failed →
      searchView ⟨buildEntries emptyEnv productsSource
        (emptyEnv.listRecords productsSource.name), .committed⟩ = []) ∧
    ((⟨buildEntries emptyEnv productsSource
        (emptyEnv.listRecords productsSource.name), .committed⟩ :
          IndexSystem).phase = .committed →
      searchView ⟨buildEntries emptyEnv productsSource
        (emptyEnv.listRecords productsSource.name), .committed⟩ =
        buildEntries emptyEnv productsSource
          (emptyEnv.listRecords productsSource.name)) :=
  rag_C7 emptyEnv productsSource [] _
    (Relation.ReflTransGen.head (RebuildStep.load [])
      (Relation.ReflTransGen.head (RebuildStep.stage [] _ rfl)
        (Relation.ReflTransGen.single (RebuildStep.commit [] _))))

/-- The fused candidate ids are exactly the deduplicated union of the
keyword hit ids and the vector hit ids. -/
theorem fuse_map_recordId (b : ℚ) (src : String) (kIds : List String)
    (vHits : List VectorHit) :
    (fuse b src kIds vHits).map (fun c => c.recordId) =
      (kIds ++ vHits.map (fun h => h.recordId)).dedup := by
  simp only [fuse, List.map_map]
  exact List.map_id _

instance : IsTotal Candidate candOrd :=
  ⟨fun a b => by
    rcases lt_trichotomy a.score b.score with h | h | h
    · exact Or.inr (Or.inl h)
    · rcases le_total a.recordId b.recordId with hle | hle
      · exact Or.inl (Or.inr ⟨h, hle⟩)
      · exact Or.inr (Or.inr ⟨h.symm, hle⟩)
    · exact Or.inl (Or.inl h)⟩

instance : IsTrans Candidate candOrd :=
  ⟨fun a b c hab hbc => by
    rcases hab with hab | ⟨hab, hab2⟩
    · rcases hbc with hbc | ⟨hbc, _⟩
      · exact Or.inl (lt_trans hbc hab)
      · exact Or.inl (hbc ▸ hab)
    · rcases hbc with hbc | ⟨hbc, hbc2⟩
      · exact Or.inl (by rw [hab]; exact hbc)
      · exact Or.inr ⟨hab.trans hbc, le_trans hab2 hbc2⟩⟩

/-- Ranking permutes the fused candidates. -/
theorem rankCandidates_perm (cs : List Candidate) : (rankCandidates cs).Perm cs :=
  List.perm_insertionSort candOrd cs

/-- Ranking sorts by descending score with ascending recordId tiebreak. -/
theorem rankCandidates_sorted (cs : List Candidate) :
    (rankCandidates cs).Pairwise candOrd :=
  List.sorted_insertionSort candOrd cs

/-- C1: every fused candidate's score is its vector similarity (0 when the
vector strategy did not retrieve it) plus the keyword boost exactly when its
id is a keyword hit; candidates retrieved by neither strategy are absent;
and concretely, with boost 2.0 a keyword-only hit (score 2.0) outranks a
vector-only hit of similarity 0.95. -/
theorem rag_C1 (b : ℚ) (src : String) (kIds : List String)
    (vHits : List VectorHit) (c : Candidate) (r : String)
    (hc : c ∈ fuse b src kIds vHits)
    (hr : r ∉ vHits.map (fun h => h.recordId)) :
    c.score = vectorSimOf vHits c.recordId +
        (if c.recordId ∈ kIds then b else 0) ∧
    vectorSimOf vHits r = 0 ∧
    (c.recordId ∈ kIds ∨ c.recordId ∈ vHits.map (fun h => h.recordId)) ∧
    rankCandidates (fuse 2 "products" ["A"] [⟨"B", 19/20⟩]) =
      [⟨"products", "A", 2, .keyword⟩, ⟨"products", "B", 19/20, .vector⟩] := by
  obtain ⟨x, hx, rfl⟩ := List.mem_map.mp hc
  refine ⟨by simp, ?_, ?_, ?_⟩
  · have hnone : vHits.find? (fun h => h.recordId == r) = none := by
      rw [List.find?_eq_none]
      intro h hh
      simp only [beq_iff_eq]
      intro heq
      exact hr (List.mem_map.mpr ⟨h, hh, heq⟩)
    simp [vectorSimOf, hnone]
  · have hmem := List.mem_dedup.mp hx
    rcases List.mem_append.mp hmem with h | h
    · exact Or.inl (by simpa using h)
    · exact Or.inr (by simpa using h)
  · simp [rankCandidates, fuse, vectorSimOf, List.dedup, List.insertionSort,
      List.orderedInsert, candOrd]
    norm_num

/-- Witness for C1 at the spec's concrete scenario. -/
theorem rag_C1_witness :
    ((⟨"products", "A", 2, Strategy.keyword⟩ : Candidate).score =
        vectorSimOf [⟨"B", 19/20⟩]
            (⟨"products", "A", 2, Strategy.keyword⟩ : Candidate).recordId +
          (if (⟨"products", "A", 2, Strategy.keyword⟩ : Candidate).recordId ∈
              ["A"] then (2 : ℚ) else 0)) ∧
    vectorSimOf [⟨"B", 19/20⟩] "Z" = 0 ∧
    ((⟨"products", "A", 2, Strategy.keyword⟩ : Candidate).recordId ∈ ["A"] ∨
      (⟨"products", "A", 2, Strategy.keyword⟩ : Candidate).recordId ∈
        ([⟨"B", 19/20⟩] : List VectorHit).map (fun h => h.recordId)) ∧
    rankCandidates (fuse 2 "products" ["A"] [⟨"B", 19/20⟩]) =
      [⟨"products", "A", 2, .keyword⟩, ⟨"products", "B", 19/20, .vector⟩] :=
  rag_C1 2 "products" ["A"] [⟨"B", 19/20⟩]
    ⟨"products", "A", 2, Strategy.keyword⟩ "Z"
    (by simp [fuse, vectorSimOf, List.dedup]) (by simp)

/-- C4: `resolveSourcesForQuery` returns exactly the configured sources one
of whose trigger keywords case-insensitively occurs in the query, in
registry declaration order; with no match and `fallbackToAllSources` off,
`search` returns an empty result with `sourcesQueried = []`, while the
default fallback queries all sources. -/
theorem rag_C4 (registry : List SourceConfig) (query : String)
    (s : SourceConfig) (cfg₁ cfg₂ : EngineConfig) (env : EngineEnv)
    (k : Option Nat) (q₁ q₂ : String)
    (h₁ : cfg₁.fallbackToAllSources = false)
    (h₂ : resolveSourcesForQuery cfg₁.registry q₁ = [])
    (h₃ : cfg₂.fallbackToAllSources = true)
    (h₄ : resolveSourcesForQuery cfg₂.registry q₂ = []) :
    (s ∈ resolveSourcesForQuery registry query ↔
      s ∈ registry ∧ s.triggeredBy query = true) ∧
    (resolveSourcesForQuery registry query).Sublist registry ∧
    search cfg₁ env q₁ none k =
      .ok { candidates := []
            metadata := { sourcesQueried := [], vectorDegraded := false } } ∧
    selectSources cfg₂ q₂ none = .ok cfg₂.registry := by
  refine ⟨?_, List.filter_sublist _, ?_, ?_⟩
  · simp [resolveSourcesForQuery, List.mem_filter]
  · cases k with
    | none =>
      simp [search, selectSources, h₁, h₂, rankCandidates, mergedCandidates,
        limitCandidates]
    | some n =>
      simp [search, selectSources, h₁, h₂, rankCandidates, mergedCandidates,
        limitCandidates]
  · simp [selectSources, h₃, h₄]

/-- Witness for C4 at the spec's `products` scenario. -/
theorem rag_C4_witness :
    (productsSource ∈ resolveSourcesForQuery [productsSource] "推荐商品" ↔
      productsSource ∈ [productsSource] ∧
        productsSource.triggeredBy "推荐商品" = true) ∧
    (resolveSourcesForQuery [productsSource] "推荐商品").Sublist
      [productsSource] ∧
    search noFallbackCfg emptyEnv "随便聊聊" none none =
      .ok { candidates := []
            metadata := { sourcesQueried := [], vectorDegraded := false } } ∧
    selectSources sampleCfg "随便聊聊" none = .ok sampleCfg.registry :=
  rag_C4 [productsSource] "推荐商品" productsSource noFallbackCfg sampleCfg
    emptyEnv none "随便聊聊" "随便聊聊" rfl (by decide) rfl (by decide)

/-- C5: with the embedder in `ModelUnavailable` and keyword search enabled,
a per-source search call succeeds: every returned candidate is a keyword
hit carrying strategy `keyword`, the degradation is recorded in
`vectorDegraded`, and a source with a keyword-matching record still yields
a non-empty result; only with keyword search also disabled does the call
return `RetrievalUnavailable` for the source. -/
theorem rag_C5 (cfg cfg' : EngineConfig) (env env' : EngineEnv)
    (src src' : SourceConfig) (query query' : String)
    (topK topK' : Option Nat)
    (hemb : env.embedderAvailable = false)
    (hkw : cfg.enableKeywordSearch = true)
    (hemb' : env'.embedderAvailable = false)
    (hkw' : cfg'.enableKeywordSearch = false) :
    (∃ res, searchSource cfg env src query topK = .ok res ∧
      res.vectorDegraded = true ∧
      (∀ c ∈ res.candidates, c.strategy = Strategy.keyword ∧
        c.recordId ∈
          keywordMatch (env.listRecords src.name) src.keywordFields query) ∧
      (keywordMatch (env.listRecords src.name) src.keywordFields query ≠ [] →
        1 ≤ topK.getD src.defaultLimit → res.candidates ≠ [])) ∧
    searchSource cfg' env' src' query' topK' =
      .error (.retrievalUnavailable src'.name) := by
  constructor
  · have hss : searchSource cfg env src query topK =
        .ok { candidates :=
                (rankCandidates (fuse cfg.keywordBoost src.name
                  (keywordMatch (env.listRecords src.name) src.keywordFields
                    query) [])).take (topK.getD src.defaultLimit)
              vectorDegraded := true } := by
      simp [searchSource, hemb, hkw]
    refine ⟨_, hss, rfl, ?_, ?_⟩
    · intro c hc
      have hc1 : c ∈ rankCandidates (fuse cfg.keywordBoost src.name
          (keywordMatch (env.listRecords src.name) src.keywordFields query)
          []) := List.mem_of_mem_take hc
      have hc2 := (rankCandidates_perm _).mem_iff.mp hc1
      obtain ⟨r, hr, rfl⟩ := List.mem_map.mp hc2
      have hrk : r ∈ keywordMatch (env.listRecords src.name)
          src.keywordFields query := by
        simpa [List.mem_dedup] using hr
      exact ⟨by simp [hrk], by simpa using hrk⟩
    · intro hne hk hcand
      rcases List.take_eq_nil_iff.mp hcand with h0 | h0
      · omega
      · have : fuse cfg.keywordBoost src.name
            (keywordMatch (env.listRecords src.name) src.keywordFields query)
            [] = [] := ((rankCandidates_perm _).symm.trans (h0 ▸ .refl _)).eq_nil
        rw [fuse] at this
        have := List.map_eq_nil_iff.mp this
        rw [List.dedup_eq_nil] at this
        simp only [List.map_nil, List.append_nil] at this
        exact hne this
  · simp [searchSource, hemb', hkw']

/-- Witness for C5 at the spec's degraded-embedder scenario. -/
theorem rag_C5_witness :
    (∃ res, searchSource sampleCfg degradedEnv productsSource "laptop stand"
        none = .ok res ∧
      res.vectorDegraded = true ∧
      (∀ c ∈ res.candidates, c.strategy = Strategy.keyword ∧
        c.recordId ∈
          keywordMatch (degradedEnv.listRecords productsSource.name)
            productsSource.keywordFields "laptop stand") ∧
      (keywordMatch (degradedEnv.listRecords productsSource.name)
          productsSource.keywordFields "laptop stand" ≠ [] →
        1 ≤ (none : Option Nat).getD productsSource.defaultLimit →
        res.candidates ≠ [])) ∧
    searchSource noKeywordCfg degradedEnv productsSource "laptop stand" none =
      .error (.retrievalUnavailable productsSource.name) :=
  rag_C5 sampleCfg noKeywordCfg degradedEnv degradedEnv productsSource
    productsSource "laptop stand" "laptop stand" none none rfl rfl rfl rfl

/-- Every keyword-hit id is the id of a record of the scanned snapshot. -/
theorem keywordMatch_subset (records : List Record) (fields : List String)
    (query : String) :
    ∀ i ∈ keywordMatch records fields query,
      i ∈ records.map (fun r => r.id) := by
  intro i hi
  rw [keywordMatch] at hi
  obtain ⟨r, hr, rfl⟩ := List.mem_map.mp hi
  exact List.mem_map.mpr ⟨r, List.mem_of_mem_filter hr, rfl⟩

/-- Inversion for a successful per-source search: the candidates are the
ranked truncation of the fusion of some keyword-hit id list (drawn from the
record snapshot) and some vector-hit list (drawn from the vector index
response). -/
theorem searchSource_ok_elim (cfg : EngineConfig) (env : EngineEnv)
    (src : SourceConfig) (query : String) (topK : Option Nat)
    (r : SourceResult) (h : searchSource cfg env src query topK = .ok r) :
    ∃ kIds vHits,
      (∀ i ∈ kIds, i ∈ (env.listRecords src.name).map (fun t => t.id)) ∧
      (∀ v ∈ vHits, v ∈ env.vectorQuery src.collectionName query) ∧
      r.candidates =
        (rankCandidates (fuse cfg.keywordBoost src.name kIds vHits)).take
          (topK.getD src.defaultLimit) := by
  simp only [searchSource] at h
  split at h
  · cases h
  · injection h with h
    refine ⟨_, _, ?_, ?_, by rw [← h]⟩
    · split
      · exact keywordMatch_subset _ _ _
      · simp
    · split
      · intro v hv
        exact hv
      · simp

/-- Inversion for a successful search call: the candidates are the limited
cross-source merge over the selected sources. -/
theorem search_ok_elim (cfg : EngineConfig) (env : EngineEnv) (query : String)
    (so : Option String) (topK : Option Nat) (res : RetrievalResult)
    (hres : search cfg env query so topK = .ok res) :
    ∃ srcs, selectSources cfg query so = .ok srcs ∧
      res.candidates =
        limitCandidates topK (mergedCandidates cfg env query topK srcs) := by
  cases hsel : selectSources cfg query so with
  | error e => simp [search, hsel] at hres
  | ok srcs =>
    refine ⟨srcs, rfl, ?_⟩
    simp only [search, hsel] at hres
    injection hres with hres
    rw [← hres]

/-- C3: with the index and record snapshot unchanged, two runs of `search`
return identical candidate lists (the model is a deterministic function of
the snapshot); within one call the candidates are sorted by descending
fused score with recordId-ascending tiebreak, and are truncated to the
caller's `topK` (per source, to `topK` with the source's `defaultLimit` as
default). -/
theorem rag_C3 (cfg : EngineConfig) (env : EngineEnv) (query : String)
    (so : Option String) (topK : Option Nat) (res : RetrievalResult) (k : Nat)
    (hres : search cfg env query so topK = .ok res) :
    search cfg env query so topK = search cfg env query so topK ∧
    res.candidates.Pairwise candOrd ∧
    (topK = some k → res.candidates.length ≤ k) ∧
    (∀ src r, searchSource cfg env src query topK = .ok r →
      r.candidates.Pairwise candOrd ∧
      r.candidates.length ≤ topK.getD src.defaultLimit) := by
  obtain ⟨srcs, hsel, hcand⟩ := search_ok_elim cfg env query so topK res hres
  refine ⟨rfl, ?_, ?_, ?_⟩
  · rw [hcand]
    cases topK with
    | none => exact rankCandidates_sorted _
    | some n =>
      exact (rankCandidates_sorted _).sublist (List.take_sublist _ _)
  · intro hk
    subst hk
    rw [hcand]
    simp [limitCandidates]
  · intro src r hr
    obtain ⟨kIds, vHits, _, _, hc⟩ :=
      searchSource_ok_elim cfg env src query topK r hr
    constructor
    · rw [hc]
      exact (rankCandidates_sorted _).sublist (List.take_sublist _ _)
    · rw [hc]
      exact List.length_take_le _ _

/-- Witness for C3 on the sample configuration. -/
theorem rag_C3_witness :
    search sampleCfg emptyEnv "推荐商品" none (some 5) =
        search sampleCfg emptyEnv "推荐商品" none (some 5) ∧
    (RetrievalResult.candidates
        ⟨[], ⟨["products"], false⟩⟩).Pairwise candOrd ∧
    (some 5 = some 5 →
      (RetrievalResult.candidates ⟨[], ⟨["products"], false⟩⟩).length ≤ 5) ∧
    (∀ src r, searchSource sampleCfg emptyEnv src "推荐商品" (some 5) = .ok r →
      r.candidates.Pairwise candOrd ∧
      r.candidates.length ≤ (some 5).getD src.defaultLimit) :=
  rag_C3 sampleCfg emptyEnv "推荐商品" none (some 5)
    ⟨[], ⟨["products"], false⟩⟩ 5 (by rfl)

/-- Per-source candidate lists carry no duplicate recordIds, and every
candidate id comes from the source's id pool. -/
theorem sourceCandidates_spec (cfg : EngineConfig) (env : EngineEnv)
    (query : String) (topK : Option Nat) (s : SourceConfig) :
    ((sourceCandidates cfg env query topK s).map (fun c => c.recordId)).Nodup ∧
    ∀ c ∈ sourceCandidates cfg env query topK s,
      c.recordId ∈ sourceIdPool env query s := by
  cases h : searchSource cfg env s query topK with
  | error e =>
    constructor
    · simp [sourceCandidates, h]
    · intro c hc
      simp [sourceCandidates, h] at hc
  | ok r =>
    obtain ⟨kIds, vHits, hk, hv, hc⟩ :=
      searchSource_ok_elim cfg env s query topK r h
    have hcands : sourceCandidates cfg env query topK s = r.candidates := by
      simp [sourceCandidates, h]
    constructor
    · rw [hcands, hc, List.map_take]
      refine List.Nodup.sublist (List.take_sublist _ _) ?_
      rw [((rankCandidates_perm _).map (fun c => c.recordId)).nodup_iff,
        fuse_map_recordId]
      exact List.nodup_dedup _
    · intro c hcm
      rw [hcands, hc] at hcm
      have hc2 := (rankCandidates_perm _).mem_iff.mp (List.mem_of_mem_take hcm)
      obtain ⟨x, hx, rfl⟩ := List.mem_map.mp hc2
      simp only [sourceIdPool, List.mem_append]
      rcases List.mem_append.mp (List.mem_dedup.mp hx) with h1 | h1
      · exact Or.inl (hk _ h1)
      · obtain ⟨v, hv1, rfl⟩ := List.mem_map.mp h1
        exact Or.inr (List.mem_map.mpr ⟨v, hv _ hv1, rfl⟩)

/-- Any pairwise property of the registry carries over to the selected
sources of a call. -/
theorem selectSources_pairwise {R : SourceConfig → SourceConfig → Prop}
    (cfg : EngineConfig) (query : String) (so : Option String)
    (srcs : List SourceConfig) (hreg : cfg.registry.Pairwise R)
    (hsel : selectSources cfg query so = .ok srcs) :
    srcs.Pairwise R := by
  cases so with
  | some n =>
    simp only [selectSources] at hsel
    cases hfind : cfg.registry.find? (fun s => s.name == n) with
    | none => rw [hfind] at hsel; cases hsel
    | some s =>
      rw [hfind] at hsel
      injection hsel with h
      rw [← h]
      simp
  | none =>
    simp only [selectSources] at hsel
    split at hsel
    · split at hsel
      · injection hsel with h
        rw [← h]
        exact hreg
      · injection hsel with h
        rw [← h]
        simp
    · injection hsel with h
      rw [← h]
      unfold resolveSourcesForQuery
      exact List.Pairwise.sublist (List.filter_sublist _) hreg

/-- C2: when the sources' id pools do not overlap, one search call never
returns two candidates with the same recordId. -/
theorem rag_C2 (cfg : EngineConfig) (env : EngineEnv) (query : String)
    (so : Option String) (topK : Option Nat) (res : RetrievalResult)
    (hdisj : cfg.registry.Pairwise (fun s₁ s₂ => ∀ i,
      i ∈ sourceIdPool env query s₁ → i ∉ sourceIdPool env query s₂))
    (hres : search cfg env query so topK = .ok res) :
    (res.candidates.map (fun c => c.recordId)).Nodup := by
  obtain ⟨srcs, hsel, hcand⟩ := search_ok_elim cfg env query so topK res hres
  have hsrcs := selectSources_pairwise cfg query so srcs hdisj hsel
  have hm : ((mergedCandidates cfg env query topK srcs).map
      (fun c => c.recordId)).Nodup := by
    rw [mergedCandidates,
      ((rankCandidates_perm _).map (fun c => c.recordId)).nodup_iff,
      List.map_flatten, List.map_map, List.nodup_flatten]
    constructor
    · intro l hl
      obtain ⟨s, hs, rfl⟩ := List.mem_map.mp hl
      exact (sourceCandidates_spec cfg env query topK s).1
    · rw [List.pairwise_map]
      refine hsrcs.imp ?_
      intro s₁ s₂ h12 i hi1 hi2
      obtain ⟨c₁, hc₁, rfl⟩ := List.mem_map.mp hi1
      obtain ⟨c₂, hc₂, he⟩ := List.mem_map.mp hi2
      exact h12 _ ((sourceCandidates_spec cfg env query topK s₁).2 c₁ hc₁)
        (he ▸ (sourceCandidates_spec cfg env query topK s₂).2 c₂ hc₂)
  rw [hcand]
  cases topK with
  | none => exact hm
  | some n =>
    simp only [limitCandidates, List.map_take]
    exact List.Nodup.sublist (List.take_sublist _ _) hm

/-- Witness for C2 on the sample configuration. -/
theorem rag_C2_witness :
    ((RetrievalResult.candidates ⟨[], ⟨["products"], false⟩⟩).map
      (fun c => c.recordId)).Nodup :=
  rag_C2 sampleCfg emptyEnv "推荐商品" none none ⟨[], ⟨["products"], false⟩⟩
    (by simp [sampleCfg]) (by rfl)

end Cogni
